import Mathlib

/-!
WireMCP Output Processing and Analysis Core: verification development.

A shallow embedding of the Output Processing and Analysis Core of the
WireMCP server (index.js): the threat correlator, the response bounder,
the packet JSON normalizer, the credential extractor, and the control
flow and command construction of the capture tool.  The implementation
file index.js is not part of the provided sources (only its test suite
is), so each definition is modelled from the description of the
corresponding component in the specification, cross-checked against the
expectations recorded in the test files of the repository.
-/

set_option autoImplicit false

namespace WireMCP

universe u

/-! ## Generic text utilities (tab/line splitting, trimming)

Modelled from the spec: the Tabular Text Parser (§4.1) — splitting raw
text on a separator character with JavaScript `String.split` semantics
(empty fields are preserved, `"".split(c) = [""]`). -/

/-- Modelled from the spec: split a character list on a separator, with
JavaScript `split` semantics: the result is always nonempty and empty
chunks are preserved. -/
def splitOnChar (sep : Char) : List Char → List (List Char)
  | [] => [[]]
  | c :: cs =>
    match splitOnChar sep cs with
    | [] => if c = sep then [[], []] else [[c]]
    | f :: rest => if c = sep then [] :: f :: rest else (c :: f) :: rest

/-- Whitespace test used by JavaScript `String.trim` on the characters
that occur in tshark tabular output. -/
def isWS (c : Char) : Bool :=
  c = ' ' || c = '\t' || c = '\n' || c = '\r'

/-- Modelled from the spec: JavaScript `line.trim()` on a character list. -/
def trimChars (l : List Char) : List Char :=
  ((l.dropWhile isWS).reverse.dropWhile isWS).reverse

/-- Lines of a raw stdout string whose trimmed form is nonempty
(`stdout.split('\n').filter(line => line.trim())`). -/
def nonBlankLines (s : String) : List (List Char) :=
  (splitOnChar '\n' s.toList).filter (fun l => !(trimChars l).isEmpty)

/-- Tab-separated fields of one line. -/
def tabFields (l : List Char) : List (List Char) :=
  splitOnChar '\t' l

/-- Field access with empty-string defaulting: a row with fewer fields
than expected yields empty-string fields rather than failing (§4.1). -/
def getField (fs : List (List Char)) (i : Nat) : List Char :=
  fs.getD i []

/-- First-appearance deduplication: keeps the first occurrence of every
element, in order of first appearance. -/
def dedupFirst : List String → List String
  | [] => []
  | a :: as => a :: dedupFirst (as.filter (fun x => x != a))
termination_by l => l.length
decreasing_by
  simp only [List.length_cons]
  exact Nat.lt_succ_of_le (List.length_filter_le _ _)

/-! ## Threat Correlator (§4.6) -/

/-- Modelled from the spec: the blacklist membership list of the Threat
Correlator — one indicator per line of the fetched blacklist text, with
`#`-prefixed comment lines and blank lines ignored, exact string match
only (`data.split('\n').filter(line => line && !line.startsWith('#'))`). -/
def blacklistEntries (b : String) : List String :=
  ((splitOnChar '\n' b.toList).map (fun l => String.mk l)).filter
    (fun l => !(l == "") && !(l.startsWith "#"))

/-- Modelled from the spec: the Threat Correlator — the observed-address
list is deduplicated preserving first-appearance order, then filtered to
the addresses present in the blacklist membership list. -/
def correlateThreats (observed : List String) (blacklist : String) : List String :=
  (dedupFirst observed).filter (fun a => decide (a ∈ blacklistEntries blacklist))

/-! ## Response Bounder (§4.7) -/

/-- Modelled from the spec: the configured maximum response size
(720,000 characters in the reference behavior). -/
def maxResponseChars : Nat := 720000

/-- Modelled from the spec: the serialized length of a list-shaped JSON
payload, given a serialized length for each element: two bracket
characters, the elements, and one separator between adjacent elements
(compositional, as `JSON.stringify` is). -/
def serLenList {α : Type u} (ser : α → Nat) (l : List α) : Nat :=
  2 + ((l.map ser).sum + (l.length - 1))

/-- Modelled from the spec: the truncation loop of the Response Bounder — if
the serialized size is within budget the list is returned unchanged;
otherwise the tail element is dropped and the size re-checked, so
truncation happens only at list-element granularity. -/
def boundList {α : Type u} (ser : α → Nat) (maxChars : Nat) : List α → List α
  | [] => []
  | a :: as =>
    if serLenList ser (a :: as) ≤ maxChars then a :: as
    else boundList ser maxChars (a :: as).dropLast
termination_by l => l.length
decreasing_by
  simp only [List.length_dropLast, List.length_cons]
  omega

/-- Modelled from the spec: a BoundedPayload — the bounded list together
with its "was truncated" marker. -/
def boundPayload {α : Type u} (ser : α → Nat) (maxChars : Nat) (l : List α) :
    List α × Bool :=
  (boundList ser maxChars l, decide (maxChars < serLenList ser l))

/-- The leading-segment relation: `LeadSeg l1 l2` holds when `l2` is
`l1` followed by some (possibly empty) tail of dropped elements. -/
def LeadSeg {α : Type u} (l1 l2 : List α) : Prop := ∃ t, l1 ++ t = l2

/-! ## Packet JSON Normalizer (§4.4) -/

/-- Modelled from the spec: one raw capture record of the parsed JSON
array — the `_source.layers` mapping from dotted field names to ordered
lists of string values, or `none` when the element lacks a well-formed
`_source.layers` mapping. -/
structure RawCaptureRecord where
  layers : Option (List (String × List String))
deriving Repr, DecidableEq

/-- First value of a (possibly multi-valued) field of a layers mapping:
multi-valued fields take their first value, absent fields default to
`none` rather than erroring. -/
def fieldFirst (ls : List (String × List String)) (key : String) : Option String :=
  match ls.find? (fun kv => kv.1 == key) with
  | some (_, v :: _) => some v
  | _ => none

/-- Modelled from the spec: the flat, field-selected packet summary
produced per record by the Packet JSON Normalizer. -/
structure PacketSummary where
  frameNumber : Option String
  ipSrc : Option String
  ipDst : Option String
  srcPort : Option String
  dstPort : Option String
  tcpFlags : Option String
  frameTime : Option String
  protocols : Option String
  url : Option String
deriving Repr, DecidableEq

/-- Modelled from the spec: the per-record projection — selected fields,
plus the derived URL `http://<host><uri>` when both `http.host` and
`http.request.uri` are present. -/
def mkSummary (ls : List (String × List String)) : PacketSummary :=
  { frameNumber := fieldFirst ls "frame.number"
    ipSrc := fieldFirst ls "ip.src"
    ipDst := fieldFirst ls "ip.dst"
    srcPort := fieldFirst ls "tcp.srcport"
    dstPort := fieldFirst ls "tcp.dstport"
    tcpFlags := fieldFirst ls "tcp.flags"
    frameTime := fieldFirst ls "frame.time"
    protocols := fieldFirst ls "frame.protocols"
    url :=
      match fieldFirst ls "http.host", fieldFirst ls "http.request.uri" with
      | some host, some uri => some ("http://" ++ host ++ uri)
      | _, _ => none }

/-- Modelled from the spec: the Packet JSON Normalizer over a parsed
JSON array — elements lacking a layers mapping are skipped (not fatal),
the rest are projected in input order. -/
def normalizePackets (records : List RawCaptureRecord) : List PacketSummary :=
  records.filterMap (fun r => r.layers.map mkSummary)

/-! ## Tool results and the check_threats flow (§4.6, §6, §7) -/

/-- Outcome of a tool call at the transport boundary: a single text block
plus the error marker. -/
structure ToolResult where
  text : String
  isError : Bool
deriving Repr, DecidableEq

/-- Modelled from the spec: a blacklist-fetch outcome that contributes
no blacklist — a collaborator failure, or a non-2xx HTTP status. -/
def fetchBad (fetch : Except String (Nat × String)) : Bool :=
  match fetch with
  | .error _ => true
  | .ok (status, _) => !(decide (200 ≤ status) && decide (status < 300))

/-- Modelled from the spec: the blacklist text the Threat Correlator
receives — the fetched body on a 2xx status, and the empty text (an
empty blacklist) on failure or non-2xx status. -/
def fetchedBlacklist (fetch : Except String (Nat × String)) : String :=
  match fetch with
  | .error _ => ""
  | .ok (status, body) =>
    if decide (200 ≤ status) && decide (status < 300) then body else ""

/-- Modelled from the spec: the payload of the check_threats tool — the
captured addresses, then either the comma-joined threat list or the
literal "No threats detected"; fetch failure is recovered locally and
never produces an error payload. -/
def checkThreatsResult (fetch : Except String (Nat × String))
    (observed : List String) : ToolResult :=
  let threats := correlateThreats observed (fetchedBlacklist fetch)
  { text :=
      "Captured IPs:\n" ++ String.intercalate "\n" observed ++ "\n\n" ++
      (if threats.isEmpty then "No threats detected"
       else "Potential threats: " ++ String.intercalate ", " threats)
    isError := false }

/-! ## Credential Extractor (§4.5) -/

/-- The tagged credential variants of the data model. -/
inductive Credential where
  | httpBasic (user pass : String)
  | ftp (user pass : String)
  | kerberos (user realm hash etype : String)
deriving Repr, DecidableEq

/-- Base64 value of one alphabet character. -/
def b64Val (c : Char) : Option Nat :=
  if 'A' ≤ c ∧ c ≤ 'Z' then some (c.toNat - 65)
  else if 'a' ≤ c ∧ c ≤ 'z' then some (c.toNat - 71)
  else if '0' ≤ c ∧ c ≤ '9' then some (c.toNat - 48 + 52)
  else if c = '+' then some 62
  else if c = '/' then some 63
  else none

/-- Decode groups of Base64 digit values (6 bits each) into bytes. -/
def b64Bytes : List Nat → Option (List Nat)
  | [] => some []
  | [_] => none
  | [a, b] => some [(a * 4 + b / 16) % 256]
  | [a, b, c] => some [(a * 4 + b / 16) % 256, ((b % 16) * 16 + c / 4) % 256]
  | a :: b :: c :: d :: rest =>
    match b64Bytes rest with
    | none => none
    | some tail =>
      some ((a * 4 + b / 16) % 256 :: ((b % 16) * 16 + c / 4) % 256 ::
        ((c % 4) * 64 + d) % 256 :: tail)

/-- Modelled from the spec: Base64 decoding of a character list (padding
characters stripped), yielding the decoded characters, or `none` for
text that is not valid Base64. -/
def base64Decode (l : List Char) : Option (List Char) :=
  match (l.filter (fun c => decide (c ≠ '='))).mapM b64Val with
  | none => none
  | some vals =>
    match b64Bytes vals with
    | none => none
    | some bytes => some (bytes.map Char.ofNat)

/-- Modelled from the spec: the HTTP Basic rule of the plaintext pass —
field 1 must decode as valid Base64 text containing exactly one colon,
which separates the username from the password. -/
def basicCred (auth : List Char) : Option (String × String) :=
  match base64Decode auth with
  | none => none
  | some decoded =>
    if (decoded.filter (fun c => decide (c = ':'))).length = 1 then
      some (String.mk (decoded.takeWhile (fun c => decide (c ≠ ':'))),
            String.mk ((decoded.dropWhile (fun c => decide (c ≠ ':'))).drop 1))
    else none

/-- Modelled from the spec: the plaintext credential pass over the
tab-split rows `auth \ command \ arg \ arg2 \ seq` — the HTTP Basic rule
is tried first on field 0; otherwise a `USER` command row records a
pending username and a `PASS` command row pairs with the pending
username to emit one FTP/Telnet credential. -/
def plaintextRows (pending : Option String) : List (List (List Char)) → List Credential
  | [] => []
  | fields :: rest =>
    match basicCred (getField fields 0) with
    | some (u, p) => Credential.httpBasic u p :: plaintextRows pending rest
    | none =>
      if getField fields 1 = "USER".toList then
        plaintextRows (some (String.mk (getField fields 2))) rest
      else if getField fields 1 = "PASS".toList then
        match pending with
        | some u =>
          Credential.ftp u (String.mk (getField fields 2)) :: plaintextRows none rest
        | none => plaintextRows none rest
      else plaintextRows pending rest

/-- Modelled from the spec: the plaintext pass applied to the raw tshark
output — nonblank lines, tab-split into rows, no pending username at the
start. -/
def extractPlaintext (stdout : String) : List Credential :=
  plaintextRows none ((nonBlankLines stdout).map tabFields)

/-- Modelled from the spec: one row of the Kerberos pass
(`user \ realm \ hash \ etype \ msg-type \ seq`) — accepted only when
user, realm, and hash are all non-empty. -/
def parseKerbRow (fields : List (List Char)) : Option Credential :=
  if String.mk (getField fields 0) ≠ "" ∧ String.mk (getField fields 1) ≠ ""
      ∧ String.mk (getField fields 2) ≠ "" then
    some (Credential.kerberos (String.mk (getField fields 0))
      (String.mk (getField fields 1)) (String.mk (getField fields 2))
      (String.mk (getField fields 3)))
  else none

/-- Modelled from the spec: the Kerberos pass applied to the raw tshark
output. -/
def extractKerberos (stdout : String) : List Credential :=
  (nonBlankLines stdout).filterMap (fun l => parseKerbRow (tabFields l))

/-- Modelled from the spec: the rendered line for one Kerberos
credential, with the ready-to-use offline-cracking command hint
(hashcat mode 18200) for etype 23. -/
def renderKerberos (user realm hash etype : String) : String :=
  "Kerberos: User=" ++ user ++ " Realm=" ++ realm ++ " Hash=" ++ hash ++
    (if etype = "23" then " (crack with: hashcat -m 18200 " ++ hash ++ ")" else "")

/-- The relation `SubSeg m l`: `m` occurs contiguously inside `l`. -/
def SubSeg {α : Type u} (m l : List α) : Prop := ∃ s t, s ++ m ++ t = l

/-! ## capture_packets control flow and command construction (§5, §6) -/

/-- Modelled from the spec: the tshark capture command string as the
unit tests record it (`tshark -i <interface> -w temp_capture.pcap -a
duration:<duration>`) — the caller-supplied interface string is
interpolated verbatim with no escaping, quoting, or validation, and
omitted arguments default to interface `en0` and duration 5 seconds. -/
def buildCaptureCommand (tsharkPath : String) (iface : Option String)
    (duration : Option Nat) : String :=
  tsharkPath ++ " -i " ++ iface.getD "en0" ++
    " -w temp_capture.pcap -a duration:" ++ toString (duration.getD 5)

/-- Modelled from the spec: the capture_packets control flow at the
collaborator boundary, taking the outcomes of the capture subprocess,
the capture-file read, and the JSON parse of the read output.  The
in-repository integration test "should handle errors gracefully"
documents that the implementation removes the temporary capture file
only once the captured output has been parsed, so the parse-failure path
reports its error with the file still on disk.  Returns the tool result
together with whether the temporary capture file was removed before the
result was reported. -/
def capturePacketsFlow (capture : Except String Unit)
    (readOut : Except String String)
    (parsed : Option (List RawCaptureRecord)) : ToolResult × Bool :=
  match capture with
  | .error e => ({ text := "Error: " ++ e, isError := true }, false)
  | .ok _ =>
    match readOut with
    | .error e => ({ text := "Error: " ++ e, isError := true }, false)
    | .ok _ =>
      match parsed with
      | none =>
        ({ text := "Error: invalid JSON from capture", isError := true }, false)
      | some records =>
        let bounded := boundList (fun p => (reprStr p).length) maxResponseChars
          (normalizePackets records)
        ({ text := "Captured packet data (JSON for easy parsing):\n" ++ reprStr bounded,
           isError := false }, true)

/-! ## Lemmas about first-appearance deduplication -/

theorem mem_dedupFirst (x : String) (l : List String) : x ∈ dedupFirst l ↔ x ∈ l := by
  induction l using dedupFirst.induct with
  | case1 => simp [dedupFirst]
  | case2 a as ih =>
    rw [dedupFirst]
    simp only [List.mem_cons, ih, List.mem_filter]
    by_cases h : x = a
    · simp [h]
    · simp [h]

theorem nodup_dedupFirst (l : List String) : (dedupFirst l).Nodup := by
  induction l using dedupFirst.induct with
  | case1 => simp [dedupFirst]
  | case2 a as ih =>
    rw [dedupFirst]
    refine List.nodup_cons.mpr ⟨?_, ih⟩
    intro hmem
    have := (mem_dedupFirst a _).mp hmem
    simp [List.mem_filter] at this

theorem dedupFirst_filter (p : String → Bool) (l : List String) :
    dedupFirst (l.filter p) = (dedupFirst l).filter p := by
  induction l using dedupFirst.induct with
  | case1 => simp [dedupFirst]
  | case2 a as ih =>
    by_cases hp : p a
    · rw [List.filter_cons_of_pos hp, dedupFirst, dedupFirst,
        List.filter_cons_of_pos hp]
      congr 1
      rw [← ih]
      congr 1
      rw [List.filter_filter, List.filter_filter]
      apply List.filter_congr
      intro x _
      exact Bool.and_comm _ _
    · rw [List.filter_cons_of_neg hp, dedupFirst, List.filter_cons_of_neg hp]
      rw [← ih]
      congr 1
      rw [List.filter_filter]
      apply List.filter_congr
      intro x _
      cases hxa : x == a
      · simp [bne, hxa]
      · have hx : x = a := eq_of_beq hxa
        subst hx
        simp [hp]

/-! ## Claim theorems: Threat Correlator -/

/-- Claim C1: for every list `O` of observed addresses and every
blacklist text `B` (with '#'-prefixed comment lines and blank lines
ignored, exact string match only), the Threat Correlator returns exactly
the addresses of `O` that occur in `B`: an address is in the result iff
it is observed and blacklisted, the result has no duplicates, the result
is the first-appearance deduplication of the blacklist-filtered observed
list (so order is first-appearance order in `O`), and the blacklist
membership list consists exactly of the nonblank, non-comment lines of
`B`. -/
theorem correlateThreats_spec_C1 (O : List String) (B : String) :
    (∀ a, a ∈ correlateThreats O B ↔ a ∈ O ∧ a ∈ blacklistEntries B) ∧
    (correlateThreats O B).Nodup ∧
    correlateThreats O B =
      dedupFirst (O.filter (fun a => decide (a ∈ blacklistEntries B))) ∧
    (∀ line, line ∈ blacklistEntries B ↔
      line ∈ (splitOnChar '\n' B.toList).map (fun l => String.mk l) ∧
      line ≠ "" ∧ ¬ line.startsWith "#") := by
  refine ⟨?_, ?_, ?_, ?_⟩
  · intro a
    simp [correlateThreats, List.mem_filter, mem_dedupFirst]
  · exact (nodup_dedupFirst O).filter _
  · exact (dedupFirst_filter _ O).symm
  · intro line
    simp [blacklistEntries, List.mem_filter]

/-! ## Lemmas about the Response Bounder -/

theorem leadSeg_refl {α : Type u} (l : List α) : LeadSeg l l := ⟨[], List.append_nil l⟩

theorem leadSeg_trans {α : Type u} {a b c : List α} :
    LeadSeg a b → LeadSeg b c → LeadSeg a c := by
  rintro ⟨t1, rfl⟩ ⟨t2, rfl⟩
  exact ⟨t1 ++ t2, (List.append_assoc a t1 t2).symm⟩

theorem leadSeg_dropLast {α : Type u} (l : List α) : LeadSeg l.dropLast l := by
  refine ⟨l.drop (l.length - 1), ?_⟩
  rw [List.dropLast_eq_take, List.take_append_drop]

theorem boundList_of_fits {α : Type u} (ser : α → Nat) (maxChars : Nat) (l : List α)
    (h : serLenList ser l ≤ maxChars) : boundList ser maxChars l = l := by
  cases l with
  | nil => rw [boundList]
  | cons a as => rw [boundList, if_pos h]

theorem boundList_serLen_le {α : Type u} (ser : α → Nat) (maxChars : Nat)
    (h2 : 2 ≤ maxChars) (l : List α) :
    serLenList ser (boundList ser maxChars l) ≤ maxChars := by
  induction l using boundList.induct ser maxChars with
  | case1 => simpa [boundList, serLenList] using h2
  | case2 a as h => rwa [boundList, if_pos h]
  | case3 a as h ih => rwa [boundList, if_neg h]

theorem boundList_leadSeg {α : Type u} (ser : α → Nat) (maxChars : Nat) (l : List α) :
    LeadSeg (boundList ser maxChars l) l := by
  induction l using boundList.induct ser maxChars with
  | case1 => rw [boundList]; exact leadSeg_refl []
  | case2 a as h => rw [boundList, if_pos h]; exact leadSeg_refl _
  | case3 a as h ih =>
    rw [boundList, if_neg h]
    exact leadSeg_trans ih (leadSeg_dropLast _)

/-! ## Claim theorems: Response Bounder -/

/-- Claim C2: for every input packet list, the output of the Response
Bounder, when serialized, has length at most 720,000 characters, and the
output is a leading segment of the input list — truncation happens only
at whole-element boundaries, so the returned payload remains a
well-formed JSON array rather than a mid-element byte cut. -/
theorem boundList_spec_C2 {α : Type u} (ser : α → Nat) (l : List α) :
    serLenList ser (boundList ser maxResponseChars l) ≤ maxResponseChars ∧
    LeadSeg (boundList ser maxResponseChars l) l :=
  ⟨boundList_serLen_le ser maxResponseChars (by norm_num [maxResponseChars]) l,
   boundList_leadSeg ser maxResponseChars l⟩

/-- Claim C7: the Response Bounder is idempotent — bounding an
already-bounded payload returns it unchanged, for every size budget and
every input list. -/
theorem boundList_idem_C7 {α : Type u} (ser : α → Nat) (maxChars : Nat) (l : List α) :
    boundList ser maxChars (boundList ser maxChars l) = boundList ser maxChars l := by
  induction l using boundList.induct ser maxChars with
  | case1 => simp [boundList]
  | case2 a as h => rw [boundList, if_pos h, boundList, if_pos h]
  | case3 a as h ih => rw [boundList, if_neg h]; exact ih

/-! ## Claim theorems: Packet JSON Normalizer -/

/-- Claim C4: for every valid JSON array of raw capture records, the
Packet JSON Normalizer produces at most as many output elements as input
elements; the output is exactly the in-order projection of the records
that have a layers mapping (so output order equals input order); each
projection preserves the field `frame.number` of the record unchanged; and an
element lacking a `_source.layers` mapping is skipped rather than
causing failure. -/
theorem normalizePackets_spec_C4 (records : List RawCaptureRecord) :
    (normalizePackets records).length ≤ records.length ∧
    normalizePackets records =
      (records.filterMap RawCaptureRecord.layers).map mkSummary ∧
    (∀ ls, (mkSummary ls).frameNumber = fieldFirst ls "frame.number") ∧
    (∀ rest, normalizePackets ({ layers := none } :: rest) = normalizePackets rest) := by
  refine ⟨List.length_filterMap_le _ _, ?_, fun ls => rfl, fun rest => rfl⟩
  rw [List.map_filterMap]
  rfl

/-! ## Claim theorems: check_threats error handling -/

/-- Claim C3: for every observed-address input, if the blacklist fetch
collaborator fails or returns a non-2xx status, the threat-check
operation treats the blacklist as empty and returns a success payload
(not an error payload) whose text ends with "No threats detected". -/
theorem checkThreats_fetchFailure_C3 (fetch : Except String (Nat × String))
    (observed : List String) (h : fetchBad fetch = true) :
    (checkThreatsResult fetch observed).isError = false ∧
    ∃ s, (checkThreatsResult fetch observed).text = s ++ "No threats detected" := by
  have hbl : fetchedBlacklist fetch = "" := by
    cases fetch with
    | error e => rfl
    | ok p =>
      obtain ⟨st, body⟩ := p
      simp only [fetchBad, Bool.not_eq_true'] at h
      simp [fetchedBlacklist, h]
  have hempty : blacklistEntries (fetchedBlacklist fetch) = [] := by
    rw [hbl]
    rfl
  refine ⟨rfl, "Captured IPs:\n" ++ String.intercalate "\n" observed ++ "\n\n", ?_⟩
  simp [checkThreatsResult, correlateThreats, hempty]

/-- Witness for C3: a concrete failed fetch with concrete observed
addresses yields a success payload ending in "No threats detected". -/
theorem checkThreats_fetchFailure_C3_witness :
    (checkThreatsResult (Except.error "API unavailable")
        ["192.168.1.1", "10.0.0.1"]).isError = false ∧
    ∃ s, (checkThreatsResult (Except.error "API unavailable")
        ["192.168.1.1", "10.0.0.1"]).text = s ++ "No threats detected" :=
  checkThreats_fetchFailure_C3 (Except.error "API unavailable")
    ["192.168.1.1", "10.0.0.1"] rfl

/-! ## Claim theorems: Credential Extractor -/

/-- Claim C5: for the plaintext credential pass, the input consisting of
the row `\ USER \ ftpuser \ \ 1` followed by the row
`\ PASS \ ftppass \ \ 2` (tab-separated) yields exactly one FTP
credential pairing username `ftpuser` with password `ftppass` —
consecutive USER/PASS rows are paired into a single credential. -/
theorem extractPlaintext_ftp_C5 :
    extractPlaintext "\tUSER\tftpuser\t\t1\n\tPASS\tftppass\t\t2\n" =
      [Credential.ftp "ftpuser" "ftppass"] := by decide

/-- Claim C6: a Kerberos-pass row yields a credential only when user,
realm, and hash are all non-empty; the row
`testuser \ TEST.REALM \ hashdata123 \ 23 \ 11 \ 1` yields exactly one
Kerberos credential with those fields, and its rendered form contains
the cracking-tool hint `hashcat -m 18200`. -/
theorem extractKerberos_spec_C6 :
    (∀ fields user realm hash etype,
      parseKerbRow fields = some (Credential.kerberos user realm hash etype) →
      user ≠ "" ∧ realm ≠ "" ∧ hash ≠ "") ∧
    extractKerberos "testuser\tTEST.REALM\thashdata123\t23\t11\t1\n" =
      [Credential.kerberos "testuser" "TEST.REALM" "hashdata123" "23"] ∧
    SubSeg ("hashcat -m 18200").toList
      (renderKerberos "testuser" "TEST.REALM" "hashdata123" "23").toList := by
  refine ⟨?_, by decide, ?_⟩
  · intro fields user realm hash etype hparse
    rw [parseKerbRow] at hparse
    split at hparse
    · rename_i hc
      obtain ⟨h1, h2, h3⟩ := hc
      cases hparse
      exact ⟨h1, h2, h3⟩
    · cases hparse
  · exact ⟨("Kerberos: User=testuser Realm=TEST.REALM Hash=hashdata123 (crack with: ").toList,
      (" hashdata123)").toList, by decide⟩

/-- Witness for C6: the universally quantified acceptance condition,
instantiated at the concrete Kerberos row of the claim. -/
theorem extractKerberos_spec_C6_witness :
    ("testuser" : String) ≠ "" ∧ ("TEST.REALM" : String) ≠ "" ∧
      ("hashdata123" : String) ≠ "" :=
  extractKerberos_spec_C6.1
    ["testuser".toList, "TEST.REALM".toList, "hashdata123".toList,
      "23".toList, "11".toList, "1".toList]
    "testuser" "TEST.REALM" "hashdata123" "23" (by decide)

/-! ## Claim theorems: capture flow and command construction -/

/-- Claim C8 is refuted by the code as its own integration test
documents it: on the JSON-parse-failure path, the capture tool reports
its error payload without having removed the temporary capture file,
whereas on the success path the file is removed before the result is
reported. -/
theorem capturePacketsFlow_cleanup_C8 :
    ((capturePacketsFlow (Except.ok ()) (Except.ok "invalid json") none).1.isError
        = true ∧
     (capturePacketsFlow (Except.ok ()) (Except.ok "invalid json") none).2 = false) ∧
    ((capturePacketsFlow (Except.ok ()) (Except.ok "[]") (some [])).1.isError
        = false ∧
     (capturePacketsFlow (Except.ok ()) (Except.ok "[]") (some [])).2 = true) :=
  ⟨⟨rfl, rfl⟩, ⟨rfl, rfl⟩⟩

/-- Claim C10: the command string handed to the capture subprocess
embeds the caller-supplied interface string verbatim — the command is
literally the concatenation of the fixed pieces around the unmodified
interface string, so the interface occurs contiguously inside it — and
when the interface and duration arguments are omitted the command uses
interface `en0` and duration 5. -/
theorem buildCaptureCommand_spec_C10 (path iface : String) (duration : Option Nat) :
    buildCaptureCommand path (some iface) duration =
      path ++ " -i " ++ iface ++ " -w temp_capture.pcap -a duration:" ++
        toString (duration.getD 5) ∧
    SubSeg iface.toList (buildCaptureCommand path (some iface) duration).toList ∧
    (∀ p, buildCaptureCommand p none none =
      p ++ " -i " ++ "en0" ++ " -w temp_capture.pcap -a duration:" ++ "5") := by
  refine ⟨rfl, ?_, fun p => rfl⟩
  refine ⟨(path ++ " -i ").toList,
    (" -w temp_capture.pcap -a duration:" ++ toString (duration.getD 5)).toList, ?_⟩
  show (path ++ " -i ").data ++ iface.data ++
      (" -w temp_capture.pcap -a duration:" ++ toString (duration.getD 5)).data
    = (buildCaptureCommand path (some iface) duration).data
  simp [buildCaptureCommand, String.data_append]

end WireMCP
